import Mathlib

/-!
Shallow embedding of the `google_email_indexer` Django application
(`models.py`, `email_indexing_service.py`, `message_sync_service.py`,
`service.py`) together with theorems checking the natural-language
specification against it.

Modelling conventions:
* Django querysets become Lean lists; a table row is a structure value.
* Primary keys: `GoogleMailMessage` rows carry a `Nat` pk (`id`);
  `IndexedEmailAddress` rows are keyed by their unique `email` string;
  `MessageEmailAddress` rows reference the message pk and the address email.
* A message's raw mbox payload is opaque (`raw : String`); the header values
  that `models.py` parses out of it (`header_from`, `header_to`, `header_cc`,
  `original_message_id`) are carried alongside as fields, set together with
  `raw` whenever the source would reparse.
* MIME display-name decoding (`decode_name`) is modelled as the identity:
  no claim depends on the decoded bytes, only on emptiness, which the
  identity preserves for the inputs the service feeds it.
* Python exceptions that a caller catches become `Option`: `none` models the
  raised exception reaching that caller.
* Timestamps: `internal_date` is a millisecond `Nat`; the `first_seen` /
  `last_seen` datetimes derived from it are stored as the originating
  millisecond value.
-/

namespace GoogleEmailIndexer

/-- `email.utils.parseaddr` result, the `EmailAddress` namedtuple of
`models.py`: a `(name, email)` pair. -/
structure EmailAddress where
  name : String
  email : String
deriving DecidableEq, Repr

/-- Django model `IndexedEmailAddress` (`models.py`): one row per normalized
email address. -/
structure IndexedEmailAddress where
  email : String
  display_name : String
  first_seen : Option Nat := none
  last_seen : Option Nat := none
  message_count : Nat := 0
deriving DecidableEq, Repr

/-- Django model `MessageEmailAddress` (`models.py`): the through row linking
a message to an indexed address with the header field it appeared in. -/
structure MessageEmailAddress where
  message : Nat
  email_address : String
  field : String
  display_name : String
deriving DecidableEq, Repr

/-- Django model `GoogleMailMessage` (`models.py`), with the mbox-derived
header views stored as fields (see the module docstring). -/
structure GoogleMailMessage where
  id : Nat
  message_id : String
  account_email : String
  history_id : String
  thread_id : String
  snippet : String
  label_ids : List String
  raw : String
  internal_date : Nat
  size_estimate : Option Nat := none
  original_message_id : Option String := none
  is_read : Bool := false
  is_starred : Bool := false
  is_important : Bool := false
  header_from : Option EmailAddress := none
  header_to : List EmailAddress := []
  header_cc : List EmailAddress := []
deriving DecidableEq, Repr

/-- Django model `SyncState` (`models.py`): per-account sync cursor. -/
structure SyncState where
  account_email : String
  last_history_id : String
deriving DecidableEq, Repr

/-- The database: one list per table. -/
structure DB where
  messages : List GoogleMailMessage := []
  addresses : List IndexedEmailAddress := []
  relationships : List MessageEmailAddress := []
  syncStates : List SyncState := []
deriving DecidableEq, Repr

/-- `MessageEmailAddress.FIELD_CHOICES` keys (`models.py`). -/
def fieldChoices : List String := ["from", "to", "cc", "bcc", "reply_to"]

/-- Number of stored rows for one `(message_id, account_email)` key — the
key the `unique_message_per_account` constraint of `models.py` governs. -/
def countIdRows (msgs : List GoogleMailMessage) (mid acct : String) : Nat :=
  (msgs.filter (fun m => m.message_id == mid && m.account_email == acct)).length

/-- Python truthiness of an optional string: `None` and `""` are falsy. -/
def truthyOpt : Option String → Bool
  | none => false
  | some s => !(s == "")

/-- `email_addr.email.lower().strip()`: lowercase every character, then
strip leading and trailing whitespace. Implemented over the character list
(ASCII-faithful to the Python string methods for the address strings in
scope). -/
def normalizeEmail (s : String) : String :=
  ⟨(((s.data.map Char.toLower).dropWhile Char.isWhitespace).reverse.dropWhile
      Char.isWhitespace).reverse⟩

/-- `decode_name` (`email_indexing_service.py`): MIME decoding, modelled as
the identity string transform (see module docstring). -/
def decode_name (name_value : String) : String := name_value

/-- Row count of the SQL join behind `indexed_email.messages.all()`: every
`MessageEmailAddress` row whose `email_address` is this address contributes
one joined message row (the FK always resolves), so `messages.count()` is the
number of relationship rows for the address, counting one message once per
role it holds. -/
def relCountFor (rels : List MessageEmailAddress) (email : String) : Nat :=
  (rels.filter (fun r => r.email_address == email)).length

/-- `update_flags_from_labels` (`models.py`): derives the boolean flags from
`label_ids`, doing nothing when the label list is empty (Python falsiness of
`self.label_ids`). -/
def update_flags_from_labels (m : GoogleMailMessage) : GoogleMailMessage :=
  if m.label_ids = [] then m
  else
    { m with
      is_read := !(m.label_ids.contains "UNREAD")
      is_starred := m.label_ids.contains "STARRED"
      is_important := m.label_ids.contains "IMPORTANT" }

/-- The display name `_create_email_relationship` stores: the decoded name
when present, the empty string otherwise. -/
def decodedNameOf (addr : EmailAddress) : String :=
  if addr.name ≠ "" then decode_name addr.name else ""

/-- The better-display-name update of `_create_email_relationship`: fill in
the decoded name on the row for this normalized email when the row has no
display name yet. -/
def displayUpd (normalized decoded : String) (a : IndexedEmailAddress) :
    IndexedEmailAddress :=
  if a.email == normalized && decoded != "" && a.display_name == "" then
    { a with display_name := decoded }
  else a

/-- `EmailIndexingService._create_email_relationship`: normalizes the
address, upserts the `IndexedEmailAddress` row (get_or_create plus the
better-display-name update), and get_or_creates the relationship row.
Returns (created?, addresses, relationships). -/
def createEmailRelationship (msgId : Nat) (addr : EmailAddress)
    (field : String) (addrs : List IndexedEmailAddress)
    (rels : List MessageEmailAddress) :
    Bool × List IndexedEmailAddress × List MessageEmailAddress :=
  let normalized := normalizeEmail addr.email
  if normalized = "" then (false, addrs, rels)
  else
    let decoded := decodedNameOf addr
    let addrs1 :=
      if addrs.any (fun a => a.email == normalized) then addrs
      else addrs ++ [{ email := normalized, display_name := decoded,
                       message_count := 0 }]
    let addrs2 := addrs1.map (displayUpd normalized decoded)
    if rels.any (fun r =>
        r.message == msgId && r.email_address == normalized &&
        r.field == field) then
      (false, addrs2, rels)
    else
      (true, addrs2,
       rels ++ [{ message := msgId, email_address := normalized,
                  field := field, display_name := decoded }])

/-- The per-address body of `_update_message_counts_for_message`: when the
address is related to the message, store its joined-row count. -/
def countRefresh (msgId : Nat) (rels : List MessageEmailAddress)
    (a : IndexedEmailAddress) : IndexedEmailAddress :=
  if rels.any (fun r => r.message == msgId && r.email_address == a.email)
  then { a with message_count := relCountFor rels a.email }
  else a

/-- `EmailIndexingService._update_message_counts_for_message`: for every
address related to the message, store the joined-row count. -/
def updateMessageCountsForMessage (msgId : Nat)
    (addrs : List IndexedEmailAddress) (rels : List MessageEmailAddress) :
    List IndexedEmailAddress :=
  addrs.map (countRefresh msgId rels)

/-- The `email_field_mapping` of `index_message_emails`, flattened in loop
order into (field, address) pairs. -/
def messageEntries (m : GoogleMailMessage) : List (String × EmailAddress) :=
  (match m.header_from with
   | some a => [("from", a)]
   | none => []) ++
  m.header_to.map (fun a => ("to", a)) ++
  m.header_cc.map (fun a => ("cc", a))

/-- One iteration of the inner loop of `index_message_emails`: skip addresses
with a falsy `email` attribute, otherwise run `_create_email_relationship`
and bump the created counter. -/
def indexStep (msgId : Nat)
    (st : Nat × List IndexedEmailAddress × List MessageEmailAddress)
    (e : String × EmailAddress) :
    Nat × List IndexedEmailAddress × List MessageEmailAddress :=
  if e.2.email ≠ "" then
    let r := createEmailRelationship msgId e.2 e.1 st.2.1 st.2.2
    (if r.1 then st.1 + 1 else st.1, r.2.1, r.2.2)
  else st

/-- `EmailIndexingService.index_message_emails`: clears the message's
relationship rows, recreates them from the header fields, optionally updates
the touched addresses' counts. Returns (relationships_created, db). -/
def index_message_emails (m : GoogleMailMessage) (update_counts : Bool)
    (db : DB) : Nat × DB :=
  let rels0 := db.relationships.filter (fun r => r.message ≠ m.id)
  let folded := (messageEntries m).foldl (indexStep m.id) (0, db.addresses, rels0)
  let addrs :=
    if update_counts then updateMessageCountsForMessage m.id folded.2.1 folded.2.2
    else folded.2.1
  (folded.1, { db with addresses := addrs, relationships := folded.2.2 })

/-- `EmailIndexingService.update_all_message_counts`: for every address,
recompute the joined-row count; when it is positive also refresh
`first_seen` / `last_seen` from the joined messages' `internal_date` range
and write back; addresses whose joined count is zero are left untouched. -/
def update_all_message_counts (db : DB) : DB :=
  { db with
    addresses := db.addresses.map (fun a =>
      let joined := db.relationships.filter (fun r => r.email_address == a.email)
      if 0 < joined.length then
        let dates := joined.filterMap (fun r =>
          (db.messages.find? (fun m => m.id == r.message)).map
            (fun m => m.internal_date))
        { a with
          message_count := joined.length
          first_seen := dates.min?
          last_seen := dates.max? }
      else a) }

/-- One message of a `bulk_index_messages` run: index it with per-message
count updates disabled and bump the processed counter. -/
def bulkStep (st : Nat × DB) (m : GoogleMailMessage) : Nat × DB :=
  (st.1 + 1, (index_message_emails m false st.2).2)

/-- `EmailIndexingService.bulk_index_messages`: index every message of the
queryset with per-message count updates disabled, then run one global count
pass. Sequential batching does not change the final state, so the batch
boundaries are not modelled; in this total embedding no per-message exception
can occur, so the error count is 0. Returns ((processed, errors), db). -/
def bulk_index_messages (msgs : List GoogleMailMessage) (db : DB) :
    (Nat × Nat) × DB :=
  let folded := msgs.foldl bulkStep (0, db)
  ((folded.1, 0), update_all_message_counts folded.2)

/-- `EmailIndexingService.clear_index`: deletes every relationship row and
every indexed address, for all accounts. -/
def clear_index (db : DB) : DB :=
  { db with relationships := [], addresses := [] }

/-- `EmailIndexingService.rebuild_index`: clears the whole index, then bulk
indexes the messages of the requested account scope (all messages when no
account is given). -/
def rebuild_index (account_email : Option String) (db : DB) :
    (Nat × Nat) × DB :=
  let db1 := clear_index db
  let qs : List GoogleMailMessage := match account_email with
    | some acc => db1.messages.filter (fun m => m.account_email == acc)
    | none => db1.messages
  bulk_index_messages qs db1

/-- The missing-message queryset of `validate_index` / `fix_missing_entries`:
messages in scope with no relationship row at all. -/
def missingMessages (account_email : Option String) (db : DB) :
    List GoogleMailMessage :=
  let qs : List GoogleMailMessage := match account_email with
    | some acc => db.messages.filter (fun m => m.account_email == acc)
    | none => db.messages
  qs.filter (fun m => !(db.relationships.any (fun r => r.message == m.id)))

/-- Result dictionary of `fix_missing_entries`. -/
structure FixResult where
  processed_count : Nat
  error_count : Nat
  missing_count : Nat
deriving DecidableEq, Repr

/-- `EmailIndexingService.fix_missing_entries`: computes the missing set;
when empty returns the all-zero report without touching the database,
otherwise bulk indexes exactly the missing messages and reruns the global
count pass. -/
def fix_missing_entries (account_email : Option String) (db : DB) :
    FixResult × DB :=
  let missing := missingMessages account_email db
  if missing.length = 0 then
    ({ processed_count := 0, error_count := 0, missing_count := 0 }, db)
  else
    let r := bulk_index_messages missing db
    let db2 := update_all_message_counts r.2
    ({ processed_count := r.1.1, error_count := r.1.2,
       missing_count := missing.length }, db2)

/-- Insertion step for `order_by` descending on `internal_date`. -/
def insertByDateDesc (m : GoogleMailMessage) :
    List GoogleMailMessage → List GoogleMailMessage
  | [] => [m]
  | x :: xs =>
    if m.internal_date ≤ x.internal_date then x :: insertByDateDesc m xs
    else m :: x :: xs

/-- `order_by` with descending `internal_date`. -/
def sortByDateDesc (l : List GoogleMailMessage) : List GoogleMailMessage :=
  l.foldr insertByDateDesc []

/-- `EmailIndexingService.get_messages_for_email`: normalized lookup of the
address; absent address returns the empty list; otherwise the joined
messages, optionally filtered by field types (Python falsiness: an empty
filter list applies no filter), ordered by `internal_date` descending and
truncated when `limit` is truthy. -/
def get_messages_for_email (email_address : String)
    (field_types : Option (List String)) (limit : Option Nat) (db : DB) :
    List GoogleMailMessage :=
  let normalized := normalizeEmail email_address
  match db.addresses.find? (fun a => a.email == normalized) with
  | none => []
  | some indexed =>
    let joined := (db.relationships.filter
        (fun r => r.email_address == indexed.email)).filterMap
      (fun r => db.messages.find? (fun m => m.id == r.message))
    let filtered := match field_types with
      | some fts =>
        if fts ≠ [] then
          let ids := (db.relationships.filter (fun r =>
            r.email_address == indexed.email && fts.contains r.field)).map
            (fun r => r.message)
          joined.filter (fun m => ids.contains m.id)
        else joined
      | none => joined
    let ordered := sortByDateDesc filtered
    match limit with
    | some n => if n ≠ 0 then ordered.take n else ordered
    | none => ordered

/-- The statistics dictionary of `get_contact_statistics`. -/
structure ContactStatistics where
  email : String
  display_name : String
  total_messages : Nat
  field_counts : List (String × Nat)
  first_seen : Option Nat
  last_seen : Option Nat
deriving DecidableEq, Repr

/-- `EmailIndexingService.get_contact_statistics`: `none` models the empty
dictionary returned when the normalized address has no index row. -/
def get_contact_statistics (email_address : String) (db : DB) :
    Option ContactStatistics :=
  let normalized := normalizeEmail email_address
  match db.addresses.find? (fun a => a.email == normalized) with
  | none => none
  | some indexed =>
    let field_counts := (fieldChoices.map (fun ft =>
      (ft, (db.relationships.filter (fun r =>
        r.email_address == indexed.email && r.field == ft)).length))).filter
      (fun p => 0 < p.2)
    some { email := indexed.email, display_name := indexed.display_name,
           total_messages := indexed.message_count,
           field_counts := field_counts,
           first_seen := indexed.first_seen, last_seen := indexed.last_seen }

/-- The payload the Gmail remote returns for one message: the union of the
`format="minimal"` metadata and the parsed content of the `format="raw"`
body that `_download_and_store_message` consumes. -/
structure RemoteMessage where
  historyId : String
  threadId : String
  snippet : String
  labelIds : List String
  raw : String
  internalDate : Nat
  sizeEstimate : Option Nat := none
  originalMessageId : Option String := none
  header_from : Option EmailAddress := none
  header_to : List EmailAddress := []
  header_cc : List EmailAddress := []
deriving DecidableEq, Repr

/-- One Gmail History API record, reduced to the message ids the sync service
reads from it. -/
structure HistoryRecord where
  messagesAdded : List String := []
  messagesDeleted : List String := []
  labelsAdded : List String := []
  labelsRemoved : List String := []
deriving DecidableEq, Repr

/-- Outcome of `GoogleEmailService.list_history` (`service.py`): a result,
the distinguished 404 "history too old" signal (the method returns `None`),
or any other remote failure (the method re-raises). -/
inductive HistoryResponse where
  | ok (records : List HistoryRecord) (historyId : Option String)
  | expired
  | err
deriving DecidableEq, Repr

/-- The remote Gmail service as the sync run observes it: the id listing a
full sync receives, the per-id message fetch (`none` models `get_message`
raising), the history response, and the profile's current history id. -/
structure Remote where
  listedMessages : List String
  fetch : String → Option RemoteMessage
  historyResponse : HistoryResponse
  profileHistoryId : Option String

/-- `MessageSyncService._store_last_history_id`: update_or_create of the
account's `SyncState` row, skipped when no account email is known. -/
def store_last_history_id (acct : String) (h : String) (db : DB) : DB :=
  if acct = "" then db
  else if db.syncStates.any (fun s => s.account_email == acct) then
    { db with syncStates := db.syncStates.map (fun s =>
        if s.account_email == acct then { s with last_history_id := h }
        else s) }
  else { db with syncStates := db.syncStates ++ [{ account_email := acct, last_history_id := h }] }

/-- Fresh autoincrement pk for an inserted message row. -/
def nextMessagePk (db : DB) : Nat :=
  (db.messages.map (fun m => m.id)).foldl max 0 + 1

/-- The `GoogleMailMessage` row `_download_and_store_message` builds from
the fetched payload (create path; the update path writes the same fields). -/
def rowOfRemote (pk : Nat) (acct messageId : String) (data : RemoteMessage) :
    GoogleMailMessage :=
  { id := pk, message_id := messageId, account_email := acct,
    history_id := data.historyId, thread_id := data.threadId,
    snippet := data.snippet, label_ids := data.labelIds, raw := data.raw,
    internal_date := data.internalDate, size_estimate := data.sizeEstimate,
    original_message_id := data.originalMessageId,
    header_from := data.header_from, header_to := data.header_to,
    header_cc := data.header_cc }

/-- `MessageSyncService._download_and_store_message`: fetch the message
(`none` models the remote call raising), then get_or_create the local row by
`(message_id, account_email)`, overwrite it in the existing case, and apply
`update_flags_from_labels` before the final save. -/
def download_and_store_message (acct : String) (remote : Remote)
    (messageId : String) (db : DB) : Option DB :=
  match remote.fetch messageId with
  | none => none
  | some data =>
    match db.messages.find? (fun m =>
        m.message_id == messageId && m.account_email == acct) with
    | some m =>
      let m1 := update_flags_from_labels
        { rowOfRemote m.id acct messageId data with
          is_read := m.is_read, is_starred := m.is_starred,
          is_important := m.is_important }
      some { db with messages := db.messages.map (fun x =>
        if x.id == m.id then m1 else x) }
    | none =>
      let m1 := update_flags_from_labels (rowOfRemote (nextMessagePk db) acct messageId data)
      some { db with messages := db.messages ++ [m1] }

/-- The in-place refresh `_update_message_labels` applies to an existing
row: new `label_ids`, new `history_id`, then `update_flags_from_labels`. -/
def labelRefresh (m : GoogleMailMessage) (meta : RemoteMessage) :
    GoogleMailMessage :=
  update_flags_from_labels
    { m with label_ids := meta.labelIds, history_id := meta.historyId }

/-- `MessageSyncService._update_message_labels`: when the message exists
locally, refetch only the minimal metadata and rewrite `label_ids`,
`history_id` and the derived flags; when it is absent, fall back to a fresh
download. -/
def update_message_labels (acct : String) (remote : Remote)
    (messageId : String) (db : DB) : Option DB :=
  match db.messages.find? (fun m =>
      m.message_id == messageId && m.account_email == acct) with
  | some m =>
    match remote.fetch messageId with
    | none => none
    | some meta =>
      some { db with messages := db.messages.map (fun x =>
        if x.id == m.id then labelRefresh m meta else x) }
  | none => download_and_store_message acct remote messageId db

/-- The statistics accumulated by `_process_message_batch`. Error strings
are modelled by their count. -/
structure BatchStats where
  new_messages : Nat := 0
  updated_messages : Nat := 0
  errors : Nat := 0
deriving DecidableEq, Repr

/-- One iteration of the `_process_message_batch` loop: look the message up
locally unless `force_update` is set; download when absent (or forced);
count the download as new exactly when the lookup found nothing; a failed
download becomes one error entry. -/
def processMessageStep (acct : String) (remote : Remote)
    (force_update : Bool) (st : BatchStats × DB) (mid : String) :
    BatchStats × DB :=
  let existing : Option GoogleMailMessage :=
    if force_update then none
    else st.2.messages.find? (fun m =>
      m.message_id == mid && m.account_email == acct)
  if existing.isNone || force_update then
    match download_and_store_message acct remote mid st.2 with
    | none => ({ st.1 with errors := st.1.errors + 1 }, st.2)
    | some db1 =>
      if existing.isNone then
        ({ st.1 with new_messages := st.1.new_messages + 1 }, db1)
      else
        ({ st.1 with updated_messages := st.1.updated_messages + 1 }, db1)
  else st

/-- `MessageSyncService._process_message_batch`: the loop over the listed
message ids. -/
def process_message_batch (acct : String) (remote : Remote)
    (batch : List String) (force_update : Bool) (db : DB) :
    BatchStats × DB :=
  batch.foldl (processMessageStep acct remote force_update) ({}, db)

/-- The statistics accumulated per history record. -/
structure RecordStats where
  messages_added : Nat := 0
  messages_deleted : Nat := 0
  labels_modified : Nat := 0
  errors : Nat := 0
deriving DecidableEq, Repr

/-- `MessageSyncService._process_history_record` (no label filter in scope):
download added messages, delete deleted ones by `(message_id, account)`
(cascading to their relationship rows), and refresh labels for label-change
entries; every per-item failure becomes one error entry. -/
def process_history_record (acct : String) (remote : Remote)
    (record : HistoryRecord) (db : DB) : RecordStats × DB :=
  let afterAdd : RecordStats × DB := record.messagesAdded.foldl
    (fun (st : RecordStats × DB) mid =>
      match download_and_store_message acct remote mid st.2 with
      | none => ({ st.1 with errors := st.1.errors + 1 }, st.2)
      | some db1 =>
        ({ st.1 with messages_added := st.1.messages_added + 1 }, db1))
    ({}, db)
  let afterDel : RecordStats × DB := record.messagesDeleted.foldl
    (fun (st : RecordStats × DB) mid =>
      let victims := st.2.messages.filter (fun m =>
        m.message_id == mid && m.account_email == acct)
      let db1 := { st.2 with
        messages := st.2.messages.filter (fun m =>
          !(m.message_id == mid && m.account_email == acct)),
        relationships := st.2.relationships.filter (fun r =>
          !(victims.any (fun m => m.id == r.message))) }
      ({ st.1 with messages_deleted := st.1.messages_deleted + 1 }, db1))
    afterAdd
  let changes := record.labelsAdded ++ record.labelsRemoved
  let st2 : RecordStats :=
    if 0 < changes.length then
      { afterDel.1 with labels_modified := afterDel.1.labels_modified + changes.length }
    else afterDel.1
  changes.foldl
    (fun (st : RecordStats × DB) mid =>
      match update_message_labels acct remote mid st.2 with
      | none => ({ st.1 with errors := st.1.errors + 1 }, st.2)
      | some db1 => (st.1, db1))
    (st2, afterDel.2)

/-- Values of the `sync_type` report field. -/
inductive SyncType where
  | full
  | incremental
deriving DecidableEq, Repr

/-- The sync report dictionary (union of the full and incremental shapes;
error strings are modelled by their count). -/
structure SyncResult where
  sync_type : SyncType
  total_found : Nat := 0
  new_messages : Nat := 0
  updated_messages : Nat := 0
  history_records : Nat := 0
  messages_added : Nat := 0
  messages_deleted : Nat := 0
  labels_modified : Nat := 0
  errors : Nat := 0
  history_id : Option String := none
deriving DecidableEq, Repr

/-- `MessageSyncService._full_sync`: list up to `max_results` ids, process
them with `force_update=False` (batching in chunks of 50 walks the same ids
in the same order, so a single pass is equivalent), then store the profile's
current history id when truthy. -/
def full_sync (acct : String) (remote : Remote) (max_results : Nat)
    (db : DB) : SyncResult × DB :=
  let messages := remote.listedMessages.take max_results
  let batch := process_message_batch acct remote messages false db
  let stored :=
    match remote.profileHistoryId with
    | some h =>
      if h ≠ "" then (some h, store_last_history_id acct h batch.2)
      else (none, batch.2)
    | none => (none, batch.2)
  ({ sync_type := .full, total_found := messages.length,
     new_messages := batch.1.new_messages,
     updated_messages := batch.1.updated_messages,
     errors := batch.1.errors, history_id := stored.1 }, stored.2)

/-- `MessageSyncService._incremental_sync`: `none` signals that a full sync
is required, produced both when `list_history` returns the expired sentinel
and when it raises any other error (the blanket `except` in the source maps
either to `None`). On success every history record is processed in order and
the returned history id is stored when truthy. -/
def incremental_sync (acct : String) (remote : Remote) (db : DB) :
    Option (SyncResult × DB) :=
  match remote.historyResponse with
  | .expired => none
  | .err => none
  | .ok records currentHistoryId =>
    let folded : RecordStats × DB := records.foldl
      (fun (st : RecordStats × DB) r =>
        let p := process_history_record acct remote r st.2
        ({ messages_added := st.1.messages_added + p.1.messages_added,
           messages_deleted := st.1.messages_deleted + p.1.messages_deleted,
           labels_modified := st.1.labels_modified + p.1.labels_modified,
           errors := st.1.errors + p.1.errors }, p.2))
      ({}, db)
    let db2 :=
      if truthyOpt currentHistoryId then
        match currentHistoryId with
        | some h => store_last_history_id acct h folded.2
        | none => folded.2
      else folded.2
    some ({ sync_type := .incremental, history_records := records.length,
            messages_added := folded.1.messages_added,
            messages_deleted := folded.1.messages_deleted,
            labels_modified := folded.1.labels_modified,
            errors := folded.1.errors, history_id := currentHistoryId }, db2)

/-- `order_by('-internal_date').first()` over the account's messages. -/
def latestMessageFor (acct : String) (db : DB) : Option GoogleMailMessage :=
  (db.messages.filter (fun m => m.account_email == acct)).foldl
    (fun acc m => match acc with
      | none => some m
      | some b => if b.internal_date < m.internal_date then some m else some b)
    none

/-- `MessageSyncService._get_last_history_id`: the `SyncState` row's value
when one exists; otherwise fall back to the history id of the account's most
recent message; `none` when neither exists. -/
def get_last_history_id (acct : String) (db : DB) : Option String :=
  if acct = "" then none
  else
    match db.syncStates.find? (fun s => s.account_email == acct) with
    | some s => some s.last_history_id
    | none =>
      match latestMessageFor acct db with
      | some m => some m.history_id
      | none => none

/-- `MessageSyncService.sync_messages` (no label filter in scope): `none`
models the `ValueError` raised when no account email can be resolved.
Full sync runs when forced or when the last history id is falsy; otherwise
one incremental attempt runs, and a `None` result from it triggers exactly
one full-sync fallback. -/
def sync_messages (acct : String) (remote : Remote) (max_results : Nat)
    (force_full_sync : Bool) (db : DB) : Option (SyncResult × DB) :=
  if acct = "" then none
  else
    let lastHistoryId := get_last_history_id acct db
    if force_full_sync || !(truthyOpt lastHistoryId) then
      some (full_sync acct remote max_results db)
    else
      match incremental_sync acct remote db with
      | none => some (full_sync acct remote max_results db)
      | some r => some r

/-!
Proof-support definitions: the address-list component of the indexing fold,
isolated so that its evolution (which is independent of the relationship
list and the created counter) can be reasoned about on its own, and the
concrete inputs used by witnesses and counterexamples.
-/

/-- The `IndexedEmailAddress`-table effect of `_create_email_relationship`
in isolation (it depends only on the address being indexed and the current
address table). -/
def addrStepFn (addr : EmailAddress) (A : List IndexedEmailAddress) :
    List IndexedEmailAddress :=
  let normalized := normalizeEmail addr.email
  if normalized = "" then A
  else
    let decoded := decodedNameOf addr
    let A1 :=
      if A.any (fun a => a.email == normalized) then A
      else A ++ [{ email := normalized, display_name := decoded,
                   message_count := 0 }]
    A1.map (displayUpd normalized decoded)

/-- The address-table effect of one `indexStep` iteration. -/
def entryAddrStep (e : String × EmailAddress)
    (A : List IndexedEmailAddress) : List IndexedEmailAddress :=
  if e.2.email ≠ "" then addrStepFn e.2 A else A

/-- The address-table effect of the whole indexing loop. -/
def addrFold (es : List (String × EmailAddress))
    (A : List IndexedEmailAddress) : List IndexedEmailAddress :=
  es.foldl (fun A e => entryAddrStep e A) A

/-- An entry is settled in an address table when re-processing it cannot
change the table: either the entry is skipped outright, or its normalized
email already has a row and no row with that email can still receive the
entry's display name. -/
def Settled (e : String × EmailAddress)
    (A : List IndexedEmailAddress) : Prop :=
  e.2.email = "" ∨ normalizeEmail e.2.email = "" ∨
  ((∃ a ∈ A, a.email = normalizeEmail e.2.email) ∧
   ∀ a ∈ A, a.email = normalizeEmail e.2.email →
     (decodedNameOf e.2 = "" ∨ a.display_name ≠ ""))

/-! Concrete inputs for witnesses and counterexamples. -/

/-- An address table whose single row has a stale positive count and no
relationship rows. -/
def orphanDb : DB :=
  { addresses := [{ email := "a@x", display_name := "", message_count := 5 }] }

/-- One address with one relationship row (message pk 1). -/
def oneRelDb : DB :=
  { addresses := [{ email := "a@x", display_name := "", message_count := 0 }],
    relationships := [{ message := 1, email_address := "a@x",
                        field := "to", display_name := "" }] }

/-- The post-recompute row of `oneRelDb`. -/
def oneRelAddr : IndexedEmailAddress :=
  { email := "a@x", display_name := "", message_count := 1 }

/-- The scenario message of the spec: `to` = [A, B], `cc` = [B], no sender
header. -/
def scenarioMsg : GoogleMailMessage :=
  { id := 1, message_id := "m1", account_email := "u", history_id := "1",
    thread_id := "t", snippet := "s", label_ids := [], raw := "",
    internal_date := 10, header_from := none,
    header_to := [⟨"", "a@x"⟩, ⟨"", "b@x"⟩], header_cc := [⟨"", "b@x"⟩] }

/-- Store holding only the scenario message, index empty. -/
def scenarioDb : DB := { messages := [scenarioMsg] }

/-- A remote that lists `m1` with changed content while `m1` is already
stored locally, for the full-sync upsert claim. -/
def listsChangedRemote : Remote :=
  { listedMessages := ["m1"],
    fetch := (fun i =>
      if i == "m1" then
        some { historyId := "2", threadId := "t", snippet := "new",
               labelIds := ["STARRED"], raw := "r", internalDate := 20 }
      else none),
    historyResponse := .err, profileHistoryId := some "9" }

/-- A remote that lists `m2`, which is absent from `scenarioDb`, for the
full-sync insert path. -/
def insertRemote : Remote :=
  { listedMessages := ["m2"],
    fetch := (fun i =>
      if i == "m2" then
        some { historyId := "5", threadId := "t", snippet := "fresh",
               labelIds := [], raw := "r2", internalDate := 30 }
      else none),
    historyResponse := .err, profileHistoryId := some "9" }

/-- A remote whose history feed succeeds with no records. -/
def okRemote : Remote :=
  { listedMessages := [], fetch := (fun _ => none),
    historyResponse := .ok [] (some "6"), profileHistoryId := some "9" }

/-- A remote whose history feed fails with a non-expired error. -/
def errRemote : Remote :=
  { listedMessages := [], fetch := (fun _ => none),
    historyResponse := .err, profileHistoryId := some "9" }

/-- A remote whose history feed reports the cursor expired. -/
def expiredRemote : Remote :=
  { listedMessages := [], fetch := (fun _ => none),
    historyResponse := .expired, profileHistoryId := some "9" }

/-- A store with a cursor for account `u`. -/
def cursorDb : DB := { syncStates := [{ account_email := "u", last_history_id := "5" }] }

/-- A store for account `b` only: one message, one address, one relationship
derived from it. -/
def otherAccountDb : DB :=
  { messages := [{ id := 1, message_id := "m2", account_email := "b",
                   history_id := "1", thread_id := "t", snippet := "",
                   label_ids := [], raw := "", internal_date := 5,
                   header_from := some ⟨"", "c@y"⟩ }],
    addresses := [{ email := "c@y", display_name := "", message_count := 1 }],
    relationships := [{ message := 1, email_address := "c@y",
                        field := "from", display_name := "" }] }

/-- A store for account `a` only, not yet indexed. -/
def ownAccountDb : DB :=
  { messages := [{ id := 1, message_id := "m3", account_email := "a",
                   history_id := "1", thread_id := "t", snippet := "",
                   label_ids := [], raw := "", internal_date := 5,
                   header_from := some ⟨"", "d@y"⟩ }] }

/-- A starred message whose remote labels were since cleared. -/
def starredDb : DB :=
  { messages := [{ id := 1, message_id := "m1", account_email := "u",
                   history_id := "1", thread_id := "t", snippet := "s",
                   label_ids := ["STARRED"], raw := "", internal_date := 10,
                   is_starred := true }] }

/-- A remote whose metadata fetch returns an empty label set and a new
history id. -/
def clearedLabelsRemote : Remote :=
  { listedMessages := [],
    fetch := (fun _ =>
      some { historyId := "2", threadId := "t", snippet := "s",
             labelIds := [], raw := "", internalDate := 10 }),
    historyResponse := .err, profileHistoryId := none }

/-! General helper lemmas. -/

theorem DB.ext_of (a b : DB) (h1 : a.messages = b.messages)
    (h2 : a.addresses = b.addresses) (h3 : a.relationships = b.relationships)
    (h4 : a.syncStates = b.syncStates) : a = b := by
  cases a; cases b; simp_all

theorem list_map_self (l : List IndexedEmailAddress)
    (f : IndexedEmailAddress → IndexedEmailAddress)
    (h : ∀ a ∈ l, f a = a) : l.map f = l := by
  induction l with
  | nil => rfl
  | cons x xs ih =>
    simp only [List.map_cons, List.cons.injEq]
    exact ⟨h x (by simp), ih (fun a ha => h a (by simp [ha]))⟩

/-! ### C1 — counts after `update_all_message_counts` -/

/-- C1 fails on the code: `update_all_message_counts` leaves an address with
zero relationship rows untouched, so a stale positive `message_count`
survives the recompute (here the only address keeps count 5 while its actual
relationship count is 0). -/
theorem recompute_counts_counterexample :
    (update_all_message_counts orphanDb).addresses =
      [{ email := "a@x", display_name := "", message_count := 5 }] ∧
    relCountFor (update_all_message_counts orphanDb).relationships "a@x" = 0 ∧
    (5 : Nat) ≠ 0 := by
  refine ⟨by decide, by decide, by decide⟩

/-- C1 amended: after `update_all_message_counts`, every address that has at
least one relationship row stores exactly its relationship-row count;
addresses with zero rows keep their previous count. -/
theorem recompute_counts_nonorphan_correct (db : DB)
    (a : IndexedEmailAddress)
    (ha : a ∈ (update_all_message_counts db).addresses)
    (hpos : 0 < relCountFor db.relationships a.email) :
    a.message_count = relCountFor db.relationships a.email := by
  unfold update_all_message_counts at ha
  simp only [List.mem_map] at ha
  obtain ⟨b, _, rfl⟩ := ha
  by_cases hc :
      0 < (db.relationships.filter (fun r => r.email_address == b.email)).length
  · simp only [hc, if_pos, relCountFor]
  · simp only [hc, if_neg, if_false] at hpos ⊢
    exact absurd hpos hc

/-- Witness: in `oneRelDb` the recomputed row is a member of the result and
the theorem applies to it. -/
theorem recompute_counts_nonorphan_correct_witness :
    oneRelAddr ∈ (update_all_message_counts oneRelDb).addresses ∧
    0 < relCountFor oneRelDb.relationships oneRelAddr.email ∧
    oneRelAddr.message_count = relCountFor oneRelDb.relationships oneRelAddr.email :=
  ⟨by decide, by decide,
   recompute_counts_nonorphan_correct oneRelDb oneRelAddr (by decide) (by decide)⟩

/-! ### C5 — the two-roles scenario -/

/-- C5 fails on the code: in the spec scenario (to = [A, B], cc = [B]) the
count stored for B is not 1 — the recount walks the relationship join, which
yields one row per role. -/
theorem two_roles_count_counterexample :
    ¬ (((index_message_emails scenarioMsg true scenarioDb).2.addresses.find?
        (fun a => a.email == "b@x")).map (fun a => a.message_count) = some 1) := by
  decide

/-- C5 amended: the scenario produces exactly the three relationships
(msg,A,to), (msg,B,to), (msg,B,cc), and B's stored count is 2 — one per
relationship row, so an address is counted once per role, not once per
message. -/
theorem two_roles_scenario_amended :
    (index_message_emails scenarioMsg true scenarioDb).1 = 3 ∧
    (index_message_emails scenarioMsg true scenarioDb).2.relationships =
      [{ message := 1, email_address := "a@x", field := "to", display_name := "" },
       { message := 1, email_address := "b@x", field := "to", display_name := "" },
       { message := 1, email_address := "b@x", field := "cc", display_name := "" }] ∧
    ((index_message_emails scenarioMsg true scenarioDb).2.addresses.find?
        (fun a => a.email == "b@x")).map (fun a => a.message_count) = some 2 ∧
    ((index_message_emails scenarioMsg true scenarioDb).2.addresses.find?
        (fun a => a.email == "a@x")).map (fun a => a.message_count) = some 1 := by
  refine ⟨by decide, by decide, by decide, by decide⟩

/-! ### C9 — `fix_missing_entries` with an empty missing set -/

/-- C9 confirmed: when the computed missing set is empty,
`fix_missing_entries` returns the all-zero report and leaves the whole
database unchanged (no message indexed, no relationship or address row
touched). -/
theorem fix_missing_empty_noop (acc : Option String) (db : DB)
    (h : (missingMessages acc db).length = 0) :
    fix_missing_entries acc db =
      ({ processed_count := 0, error_count := 0, missing_count := 0 }, db) := by
  unfold fix_missing_entries
  simp [h]

/-- Witness: the empty store has an empty missing set and the no-op report. -/
theorem fix_missing_empty_noop_witness :
    (missingMessages none ({} : DB)).length = 0 ∧
    fix_missing_entries none ({} : DB) =
      ({ processed_count := 0, error_count := 0, missing_count := 0 }, ({} : DB)) :=
  ⟨by decide, fix_missing_empty_noop none ({} : DB) (by decide)⟩

/-! ### C10 — lookups of an address that is not indexed -/

/-- C10 confirmed: when no `IndexedEmailAddress` row matches the normalized
(lowercased, trimmed) address, `get_messages_for_email` returns the empty
list and `get_contact_statistics` returns the empty dictionary (`none`);
both are ordinary returns, not raised errors, which the total embedding
reflects. -/
theorem absent_address_lookup_empty (email_address : String)
    (ft : Option (List String)) (lim : Option Nat) (db : DB)
    (h : db.addresses.find?
      (fun a => a.email == normalizeEmail email_address) = none) :
    get_messages_for_email email_address ft lim db = [] ∧
    get_contact_statistics email_address db = none := by
  constructor
  · simp only [get_messages_for_email, h]
  · simp only [get_contact_statistics, h]

/-- Witness: an unindexed, unnormalized address in the empty store. -/
theorem absent_address_lookup_empty_witness :
    (({} : DB).addresses.find?
      (fun a => a.email == normalizeEmail " A@X ") = none) ∧
    get_messages_for_email " A@X " none none ({} : DB) = [] ∧
    get_contact_statistics " A@X " ({} : DB) = none :=
  ⟨by decide,
   (absent_address_lookup_empty " A@X " none none ({} : DB) (by decide)).1,
   (absent_address_lookup_empty " A@X " none none ({} : DB) (by decide)).2⟩

/-! ### C8 — label-change refresh of an existing message -/

/-- C8 fails on the code: refreshing labels for a locally present message
also rewrites `history_id` (here from "1" to "2"), and because the new label
set is empty the derived flags are not refreshed at all (the message stays
starred although STARRED was removed remotely). -/
theorem label_update_counterexample :
    starredDb.messages.map (fun m => (m.history_id, m.is_starred)) =
      [("1", true)] ∧
    (update_message_labels "u" clearedLabelsRemote "m1" starredDb).map
        (fun d => d.messages.map (fun m =>
          (m.history_id, m.label_ids, m.is_starred))) =
      some [("2", ([] : List String), true)] := by
  refine ⟨by decide, by decide⟩

/-- C8 amended: for a locally present message, `_update_message_labels`
replaces exactly the label set, the history id, and the derived flags (the
flags being recomputed from the new labels only when the new label set is
nonempty, and left as they were when it is empty); every other field of the
message, and every other record, is untouched, and an absent message is
downloaded fresh instead. -/
theorem label_update_amended (acct mid : String) (remote : Remote) (db : DB) :
    (update_message_labels acct remote mid db =
      match db.messages.find? (fun x =>
          x.message_id == mid && x.account_email == acct) with
      | some m => (remote.fetch mid).map (fun meta =>
          { db with messages := db.messages.map (fun x =>
              if x.id == m.id then labelRefresh m meta else x) })
      | none => download_and_store_message acct remote mid db) ∧
    (∀ (m : GoogleMailMessage) (meta : RemoteMessage),
      (labelRefresh m meta).label_ids = meta.labelIds ∧
      (labelRefresh m meta).history_id = meta.historyId ∧
      (labelRefresh m meta).id = m.id ∧
      (labelRefresh m meta).message_id = m.message_id ∧
      (labelRefresh m meta).account_email = m.account_email ∧
      (labelRefresh m meta).thread_id = m.thread_id ∧
      (labelRefresh m meta).snippet = m.snippet ∧
      (labelRefresh m meta).raw = m.raw ∧
      (labelRefresh m meta).internal_date = m.internal_date ∧
      (labelRefresh m meta).size_estimate = m.size_estimate ∧
      (labelRefresh m meta).original_message_id = m.original_message_id ∧
      (labelRefresh m meta).header_from = m.header_from ∧
      (labelRefresh m meta).header_to = m.header_to ∧
      (labelRefresh m meta).header_cc = m.header_cc ∧
      (labelRefresh m meta).is_read =
        (if meta.labelIds = [] then m.is_read
         else !(meta.labelIds.contains "UNREAD")) ∧
      (labelRefresh m meta).is_starred =
        (if meta.labelIds = [] then m.is_starred
         else meta.labelIds.contains "STARRED") ∧
      (labelRefresh m meta).is_important =
        (if meta.labelIds = [] then m.is_important
         else meta.labelIds.contains "IMPORTANT")) := by
  constructor
  · unfold update_message_labels
    cases db.messages.find? (fun x =>
        x.message_id == mid && x.account_email == acct) with
    | none => rfl
    | some m =>
      cases remote.fetch mid with
      | none => rfl
      | some meta => rfl
  · intro m meta
    unfold labelRefresh update_flags_from_labels
    by_cases hl : meta.labelIds = [] <;> simp [hl]

/-! ### Sync control-flow helper lemmas -/

theorem full_sync_type (acct : String) (remote : Remote) (n : Nat)
    (db : DB) : (full_sync acct remote n db).1.sync_type = SyncType.full := rfl

theorem incremental_sync_none_iff (acct : String) (remote : Remote)
    (db : DB) :
    incremental_sync acct remote db = none ↔
      (remote.historyResponse = .expired ∨ remote.historyResponse = .err) := by
  unfold incremental_sync
  cases remote.historyResponse <;> simp

theorem incremental_sync_type (acct : String) (remote : Remote) (db : DB)
    (r : SyncResult × DB) (h : incremental_sync acct remote db = some r) :
    r.1.sync_type = SyncType.incremental := by
  unfold incremental_sync at h
  cases hresp : remote.historyResponse with
  | ok records hid =>
    rw [hresp] at h
    cases h
    rfl
  | expired => rw [hresp] at h; cases h
  | err => rw [hresp] at h; cases h

/-! ### C3 — when a full sync runs -/

/-- C3 fails on the code: with no `SyncCursor` stored but a message present
locally, `_get_last_history_id` falls back to the latest message's history
id and an incremental sync runs, so "with no stored cursor a full sync
always executes" is false. -/
theorem sync_no_cursor_counterexample :
    scenarioDb.syncStates = [] ∧
    (sync_messages "u" okRemote 100 false scenarioDb).map
      (fun r => r.1.sync_type) = some SyncType.incremental := by
  refine ⟨by decide, by decide⟩

/-- C3 amended: a full sync runs exactly when the sync is forced, or no
truthy last history id is available (neither a `SyncCursor` row nor a stored
message for the account supplies one), or the single incremental attempt
returns the fallback sentinel — which happens exactly when the remote
reports the cursor expired or fails with any other error. -/
theorem sync_full_iff_amended (acct : String) (remote : Remote)
    (max_results : Nat) (force : Bool) (db : DB) (h : acct ≠ "") :
    ((sync_messages acct remote max_results force db).map
        (fun r => r.1.sync_type) = some SyncType.full) ↔
      (force = true ∨ truthyOpt (get_last_history_id acct db) = false ∨
       remote.historyResponse = .expired ∨ remote.historyResponse = .err) := by
  unfold sync_messages
  rw [if_neg h]
  by_cases hc : (force || !(truthyOpt (get_last_history_id acct db))) = true
  · rw [if_pos hc]
    simp only [Option.map_some']
    constructor
    · intro _
      cases force with
      | true => exact Or.inl rfl
      | false =>
        cases htv : truthyOpt (get_last_history_id acct db) with
        | false => exact Or.inr (Or.inl rfl)
        | true => simp [htv] at hc
    · intro _
      simp [full_sync_type]
  · rw [if_neg hc]
    have hforce : force = false := by
      cases force
      · rfl
      · exact absurd (by simp) hc
    have htr : truthyOpt (get_last_history_id acct db) = true := by
      cases htv : truthyOpt (get_last_history_id acct db)
      · exact absurd (by simp [hforce, htv]) hc
      · rfl
    cases hi : incremental_sync acct remote db with
    | none =>
      have hresp := (incremental_sync_none_iff acct remote db).mp hi
      simp [hi, full_sync_type, hforce, htr, hresp]
    | some r =>
      have ht := incremental_sync_type acct remote db r hi
      have hne1 : remote.historyResponse ≠ .expired := by
        intro hh
        rw [(incremental_sync_none_iff acct remote db).mpr (Or.inl hh)] at hi
        cases hi
      have hne2 : remote.historyResponse ≠ .err := by
        intro hh
        rw [(incremental_sync_none_iff acct remote db).mpr (Or.inr hh)] at hi
        cases hi
      simp [ht, hforce, htr, hne1, hne2]

/-- Witness: forcing the sync yields a full sync report. -/
theorem sync_full_iff_amended_witness :
    ("u" : String) ≠ "" ∧
    (sync_messages "u" errRemote 5 true ({} : DB)).map
      (fun r => r.1.sync_type) = some SyncType.full :=
  ⟨by decide,
   (sync_full_iff_amended "u" errRemote 5 true {} (by decide)).mpr (Or.inl rfl)⟩

/-! ### C4 — the full-sync fallback trigger -/

/-- C4 fails on the code: the fallback is not restricted to the
distinguished cursor-expired signal — a non-expired incremental-sync error
(`list_history` raising) is swallowed by the blanket handler and also falls
back to a full sync. -/
theorem incremental_error_fallback_counterexample :
    cursorDb.syncStates = [{ account_email := "u", last_history_id := "5" }] ∧
    errRemote.historyResponse = HistoryResponse.err ∧
    HistoryResponse.err ≠ HistoryResponse.expired ∧
    (sync_messages "u" errRemote 100 false cursorDb).map
      (fun r => r.1.sync_type) = some SyncType.full := by
  refine ⟨by decide, by decide, by decide, by decide⟩

/-- C4 amended: with a usable cursor and no forcing, the fallback to full
sync happens exactly once per sync call — the result is literally one
`full_sync` run — and it is triggered by the fallback sentinel, which the
incremental attempt produces both for the distinguished cursor-expired
signal and for any other incremental-sync error; a successful history fetch
yields an incremental report. -/
theorem sync_fallback_amended (acct : String) (remote : Remote)
    (max_results : Nat) (db : DB) (hacct : acct ≠ "")
    (hcur : truthyOpt (get_last_history_id acct db) = true) :
    ((remote.historyResponse = .expired ∨ remote.historyResponse = .err) →
      sync_messages acct remote max_results false db =
        some (full_sync acct remote max_results db)) ∧
    (∀ records hid, remote.historyResponse = .ok records hid →
      (sync_messages acct remote max_results false db).map
        (fun r => r.1.sync_type) = some SyncType.incremental) := by
  unfold sync_messages
  rw [if_neg hacct]
  have hcond : (false || !(truthyOpt (get_last_history_id acct db))) = false := by
    simp [hcur]
  rw [if_neg (by simp [hcond])]
  constructor
  · intro hresp
    rw [(incremental_sync_none_iff acct remote db).mpr hresp]
  · intro records hid hresp
    simp [incremental_sync, hresp]

/-- Witness: an expired cursor with a stored `SyncState` falls back to one
full sync. -/
theorem sync_fallback_amended_witness :
    ("u" : String) ≠ "" ∧
    truthyOpt (get_last_history_id "u" cursorDb) = true ∧
    sync_messages "u" expiredRemote 100 false cursorDb =
      some (full_sync "u" expiredRemote 100 cursorDb) :=
  ⟨by decide, by decide,
   (sync_fallback_amended "u" expiredRemote 100 cursorDb (by decide)
     (by decide)).1 (Or.inl rfl)⟩

/-! ### C2 — full-sync treatment of already-present messages -/

theorem store_history_messages (acct h : String) (db : DB) :
    (store_last_history_id acct h db).messages = db.messages := by
  unfold store_last_history_id
  split
  · rfl
  · split <;> rfl

theorem download_insert_of_absent (acct : String) (remote : Remote)
    (mid : String) (db : DB)
    (hfind : db.messages.find? (fun m =>
      m.message_id == mid && m.account_email == acct) = none) :
    download_and_store_message acct remote mid db =
      match remote.fetch mid with
      | none => none
      | some data => some { db with messages := db.messages ++
          [update_flags_from_labels (rowOfRemote (nextMessagePk db) acct mid data)] } := by
  unfold download_and_store_message
  cases remote.fetch mid with
  | none => rfl
  | some data => rw [hfind]

theorem update_flags_key (m : GoogleMailMessage) :
    (update_flags_from_labels m).message_id = m.message_id ∧
    (update_flags_from_labels m).account_email = m.account_email := by
  unfold update_flags_from_labels
  split <;> exact ⟨rfl, rfl⟩

theorem countIdRows_append_one (msgs : List GoogleMailMessage)
    (row : GoogleMailMessage) (mid acct : String) :
    countIdRows (msgs ++ [row]) mid acct =
      countIdRows msgs mid acct +
      (if row.message_id == mid && row.account_email == acct then 1 else 0) := by
  unfold countIdRows
  rw [List.filter_append, List.length_append]
  congr 1
  by_cases h : (row.message_id == mid && row.account_email == acct) = true <;>
    simp [List.filter, h]

theorem processMessageStep_false_spec (acct : String) (remote : Remote)
    (mid0 : String) (st : BatchStats × DB) :
    ((processMessageStep acct remote false st mid0).1.updated_messages =
      st.1.updated_messages) ∧
    (∀ m ∈ st.2.messages,
      m ∈ (processMessageStep acct remote false st mid0).2.messages) ∧
    ((remote.fetch mid0).isSome = true →
      ∃ msg, msg ∈ (processMessageStep acct remote false st mid0).2.messages ∧
        msg.message_id = mid0 ∧ msg.account_email = acct) ∧
    ((processMessageStep acct remote false st mid0).2.messages.length +
        st.1.new_messages =
      st.2.messages.length +
        (processMessageStep acct remote false st mid0).1.new_messages) ∧
    (∀ mid,
      countIdRows (processMessageStep acct remote false st mid0).2.messages
          mid acct ≤
        max (countIdRows st.2.messages mid acct) 1) := by
  unfold processMessageStep
  cases hfind : st.2.messages.find? (fun m =>
      m.message_id == mid0 && m.account_email == acct) with
  | some mm =>
    refine ⟨rfl, fun m hm => hm, ?_, rfl, fun mid => le_max_left _ _⟩
    intro _
    have hmem := List.mem_of_find?_eq_some hfind
    have hp := List.find?_some hfind
    simp only [Bool.and_eq_true, beq_iff_eq] at hp
    exact ⟨mm, hmem, hp.1, hp.2⟩
  | none =>
    rw [download_insert_of_absent acct remote mid0 st.2 hfind]
    cases hfetch : remote.fetch mid0 with
    | none =>
      refine ⟨rfl, fun m hm => hm, ?_, rfl, fun mid => le_max_left _ _⟩
      intro hsome
      simp at hsome
    | some data =>
      refine ⟨rfl, fun m hm => List.mem_append.mpr (Or.inl hm), ?_, ?_, ?_⟩
      · intro _
        exact ⟨update_flags_from_labels
            (rowOfRemote (nextMessagePk st.2) acct mid0 data),
          List.mem_append.mpr (Or.inr (by simp)),
          (update_flags_key _).1, (update_flags_key _).2⟩
      · show (st.2.messages ++ [update_flags_from_labels
            (rowOfRemote (nextMessagePk st.2) acct mid0 data)]).length +
            st.1.new_messages =
          st.2.messages.length + (st.1.new_messages + 1)
        simp only [List.length_append, List.length_singleton]
        omega
      · intro mid
        show countIdRows (st.2.messages ++ [update_flags_from_labels
            (rowOfRemote (nextMessagePk st.2) acct mid0 data)]) mid acct ≤
          max (countIdRows st.2.messages mid acct) 1
        rw [countIdRows_append_one]
        by_cases hm : ((update_flags_from_labels
            (rowOfRemote (nextMessagePk st.2) acct mid0 data)).message_id == mid &&
            (update_flags_from_labels
              (rowOfRemote (nextMessagePk st.2) acct mid0 data)).account_email == acct) = true
        · rw [if_pos hm]
          rw [(update_flags_key _).1, (update_flags_key _).2] at hm
          simp only [Bool.and_eq_true, beq_iff_eq] at hm
          have hmid : mid0 = mid := by
            rcases hm with ⟨h1, _⟩
            exact h1
          subst hmid
          have h0 : countIdRows st.2.messages mid0 acct = 0 := by
            unfold countIdRows
            rw [List.length_eq_zero, List.filter_eq_nil_iff]
            intro a ha
            exact List.find?_eq_none.mp hfind a ha
          rw [h0]
          simp
        · rw [if_neg hm]
          simp

theorem process_batch_false_invariant (acct : String) (remote : Remote)
    (batch : List String) :
    ∀ (st : BatchStats × DB),
      ((batch.foldl (processMessageStep acct remote false) st).1.updated_messages =
        st.1.updated_messages) ∧
      (∀ m ∈ st.2.messages,
        m ∈ (batch.foldl (processMessageStep acct remote false) st).2.messages) ∧
      (∀ mid ∈ batch, (remote.fetch mid).isSome = true →
        ∃ msg, msg ∈ (batch.foldl (processMessageStep acct remote false) st).2.messages ∧
          msg.message_id = mid ∧ msg.account_email = acct) ∧
      ((batch.foldl (processMessageStep acct remote false) st).2.messages.length +
          st.1.new_messages =
        st.2.messages.length +
          (batch.foldl (processMessageStep acct remote false) st).1.new_messages) ∧
      (∀ mid,
        countIdRows (batch.foldl (processMessageStep acct remote false) st).2.messages
            mid acct ≤
          max (countIdRows st.2.messages mid acct) 1) := by
  induction batch with
  | nil =>
    intro st
    refine ⟨rfl, fun m hm => hm, ?_, rfl, fun mid => le_max_left _ _⟩
    intro mid hmid
    cases hmid
  | cons mid0 rest ih =>
    intro st
    simp only [List.foldl_cons]
    have hstep := processMessageStep_false_spec acct remote mid0 st
    have hrest := ih (processMessageStep acct remote false st mid0)
    refine ⟨?_, ?_, ?_, ?_, ?_⟩
    · exact hrest.1.trans hstep.1
    · intro m hm
      exact hrest.2.1 m (hstep.2.1 m hm)
    · intro mid hmid hsome
      rcases List.mem_cons.mp hmid with rfl | hmem
      · obtain ⟨msg, hmsg, hid, hacct⟩ := hstep.2.2.1 hsome
        exact ⟨msg, hrest.2.1 msg hmsg, hid, hacct⟩
      · exact hrest.2.2.1 mid hmem hsome
    · have h1 := hrest.2.2.2.1
      have h2 := hstep.2.2.2.1
      omega
    · intro mid
      exact (hrest.2.2.2.2 mid).trans
        (max_le (hstep.2.2.2.2 mid) (le_max_right _ _))

theorem process_batch_false_spec (acct : String) (remote : Remote)
    (batch : List String) (db : DB) :
    ((process_message_batch acct remote batch false db).1.updated_messages = 0) ∧
    (∀ m ∈ db.messages,
      m ∈ (process_message_batch acct remote batch false db).2.messages) ∧
    (∀ mid ∈ batch, (remote.fetch mid).isSome = true →
      ∃ msg, msg ∈ (process_message_batch acct remote batch false db).2.messages ∧
        msg.message_id = mid ∧ msg.account_email = acct) ∧
    ((process_message_batch acct remote batch false db).2.messages.length =
      db.messages.length +
        (process_message_batch acct remote batch false db).1.new_messages) ∧
    (∀ mid,
      countIdRows (process_message_batch acct remote batch false db).2.messages
          mid acct ≤
        max (countIdRows db.messages mid acct) 1) := by
  unfold process_message_batch
  have h := process_batch_false_invariant acct remote batch ({}, db)
  refine ⟨h.1, h.2.1, h.2.2.1, ?_, h.2.2.2.2⟩
  have h1 : (batch.foldl (processMessageStep acct remote false)
        ({}, db)).2.messages.length + 0 =
      db.messages.length + (batch.foldl (processMessageStep acct remote false)
        ({}, db)).1.new_messages := h.2.2.2.1
  omega

/-- C2 fails on the code: a full sync with the listed message already stored
locally neither re-downloads nor counts it — the local row keeps its old
content (snippet "s", not the remote's "new"), and both report counters stay
0; in particular it is never counted as updated. -/
theorem full_sync_skips_present_counterexample :
    scenarioDb.messages.map (fun m => m.snippet) = ["s"] ∧
    listsChangedRemote.listedMessages = ["m1"] ∧
    (listsChangedRemote.fetch "m1").map (fun d => d.snippet) = some "new" ∧
    (full_sync "u" listsChangedRemote 100 scenarioDb).1.updated_messages = 0 ∧
    (full_sync "u" listsChangedRemote 100 scenarioDb).1.new_messages = 0 ∧
    (full_sync "u" listsChangedRemote 100 scenarioDb).2.messages.map
      (fun m => m.snippet) = ["s"] := by
  refine ⟨by decide, by decide, by decide, by decide, by decide, by decide⟩

/-- C2 amended: in a full sync, a listed message that is already present
locally is skipped — it is not re-downloaded, it is counted neither as new
nor as updated (the updated count of a full-sync report is always 0), and
every previously stored message row survives the sync unchanged; a listed
id whose fetch succeeds is present for the account afterwards (absent ids
are downloaded and inserted), every insertion is counted as new (the store
grows by exactly the reported new-message count), and no duplicates arise:
the row count of any `(message_id, account)` key never exceeds
`max(before, 1)`. -/
theorem full_sync_amended (acct : String) (remote : Remote)
    (max_results : Nat) (db : DB) :
    ((full_sync acct remote max_results db).1.updated_messages = 0) ∧
    (∀ m ∈ db.messages, m ∈ (full_sync acct remote max_results db).2.messages) ∧
    (∀ mid ∈ remote.listedMessages.take max_results,
      (remote.fetch mid).isSome = true →
      ∃ msg, msg ∈ (full_sync acct remote max_results db).2.messages ∧
        msg.message_id = mid ∧ msg.account_email = acct) ∧
    ((full_sync acct remote max_results db).2.messages.length =
      db.messages.length +
        (full_sync acct remote max_results db).1.new_messages) ∧
    (∀ mid,
      countIdRows (full_sync acct remote max_results db).2.messages mid acct ≤
        max (countIdRows db.messages mid acct) 1) := by
  have hspec := process_batch_false_spec acct remote
    (remote.listedMessages.take max_results) db
  have hmsgs : (full_sync acct remote max_results db).2.messages =
      (process_message_batch acct remote
        (remote.listedMessages.take max_results) false db).2.messages := by
    unfold full_sync
    cases hp : remote.profileHistoryId with
    | none => rfl
    | some hh =>
      by_cases hhe : hh = ""
      · simp [hhe]
      · simp [hhe, store_history_messages]
  refine ⟨hspec.1, ?_, ?_, ?_, ?_⟩
  · intro m hm
    rw [hmsgs]
    exact hspec.2.1 m hm
  · intro mid hmid hsome
    obtain ⟨msg, h1, h2, h3⟩ := hspec.2.2.1 mid hmid hsome
    exact ⟨msg, by rw [hmsgs]; exact h1, h2, h3⟩
  · rw [hmsgs]
    exact hspec.2.2.2.1
  · intro mid
    rw [hmsgs]
    exact hspec.2.2.2.2 mid

/-- Witness: the already-present scenario message survives a full sync that
counts zero updated messages, and a listed absent id (`m2`) is downloaded,
inserted for the account, counted as new (report shows 1, the store grows
from one row to two), with no duplicate row for its key. -/
theorem full_sync_amended_witness :
    (full_sync "u" listsChangedRemote 100 scenarioDb).1.updated_messages = 0 ∧
    scenarioMsg ∈ scenarioDb.messages ∧
    scenarioMsg ∈ (full_sync "u" listsChangedRemote 100 scenarioDb).2.messages ∧
    "m2" ∈ insertRemote.listedMessages.take 100 ∧
    (insertRemote.fetch "m2").isSome = true ∧
    (∃ msg, msg ∈ (full_sync "u" insertRemote 100 scenarioDb).2.messages ∧
      msg.message_id = "m2" ∧ msg.account_email = "u") ∧
    (full_sync "u" insertRemote 100 scenarioDb).2.messages.length =
      scenarioDb.messages.length +
        (full_sync "u" insertRemote 100 scenarioDb).1.new_messages ∧
    countIdRows (full_sync "u" insertRemote 100 scenarioDb).2.messages "m2" "u" ≤
      max (countIdRows scenarioDb.messages "m2" "u") 1 ∧
    (full_sync "u" insertRemote 100 scenarioDb).1.new_messages = 1 ∧
    (full_sync "u" insertRemote 100 scenarioDb).2.messages.map
      (fun m => (m.message_id, m.snippet)) = [("m1", "s"), ("m2", "fresh")] :=
  ⟨(full_sync_amended "u" listsChangedRemote 100 scenarioDb).1,
   by decide,
   (full_sync_amended "u" listsChangedRemote 100 scenarioDb).2.1 scenarioMsg
     (by decide),
   by decide,
   by decide,
   (full_sync_amended "u" insertRemote 100 scenarioDb).2.2.1 "m2" (by decide)
     (by decide),
   (full_sync_amended "u" insertRemote 100 scenarioDb).2.2.2.1,
   (full_sync_amended "u" insertRemote 100 scenarioDb).2.2.2.2 "m2",
   by decide,
   by decide⟩

/-! ### C7 — scope of `rebuild_index` -/

theorem createEmailRelationship_rels_mem (i : Nat) (a : EmailAddress)
    (f : String) (A : List IndexedEmailAddress)
    (R : List MessageEmailAddress) (r : MessageEmailAddress)
    (h : r ∈ (createEmailRelationship i a f A R).2.2) :
    r ∈ R ∨ r.message = i := by
  dsimp only [createEmailRelationship] at h
  split at h
  · exact Or.inl h
  · split at h
    · exact Or.inl h
    · rcases List.mem_append.mp h with h1 | h1
      · exact Or.inl h1
      · simp only [List.mem_singleton] at h1
        subst h1
        exact Or.inr rfl

theorem indexStep_rels_mem (i : Nat)
    (st : Nat × List IndexedEmailAddress × List MessageEmailAddress)
    (e : String × EmailAddress) (r : MessageEmailAddress)
    (h : r ∈ (indexStep i st e).2.2) : r ∈ st.2.2 ∨ r.message = i := by
  dsimp only [indexStep] at h
  split at h
  · exact createEmailRelationship_rels_mem i e.2 e.1 st.2.1 st.2.2 r h
  · exact Or.inl h

theorem foldl_indexStep_rels_mem (i : Nat)
    (es : List (String × EmailAddress)) :
    ∀ (st : Nat × List IndexedEmailAddress × List MessageEmailAddress)
      (r : MessageEmailAddress),
      r ∈ (es.foldl (indexStep i) st).2.2 → r ∈ st.2.2 ∨ r.message = i := by
  induction es with
  | nil => exact fun st r h => Or.inl h
  | cons e rest ih =>
    intro st r h
    rcases ih (indexStep i st e) r h with h1 | h1
    · exact indexStep_rels_mem i st e r h1
    · exact Or.inr h1

theorem index_message_rels_mem (m : GoogleMailMessage) (u : Bool) (db : DB)
    (r : MessageEmailAddress)
    (h : r ∈ (index_message_emails m u db).2.relationships) :
    r ∈ db.relationships ∨ r.message = m.id := by
  have h' : r ∈ ((messageEntries m).foldl (indexStep m.id)
      (0, db.addresses,
       db.relationships.filter (fun x => x.message ≠ m.id))).2.2 := h
  rcases foldl_indexStep_rels_mem m.id (messageEntries m) _ r h' with h1 | h1
  · exact Or.inl (List.mem_of_mem_filter h1)
  · exact Or.inr h1

theorem bulk_rels_mem (msgs : List GoogleMailMessage) :
    ∀ (st : Nat × DB) (r : MessageEmailAddress),
      r ∈ (msgs.foldl bulkStep st).2.relationships →
      r ∈ st.2.relationships ∨ ∃ m, m ∈ msgs ∧ r.message = m.id := by
  induction msgs with
  | nil => exact fun st r h => Or.inl h
  | cons x rest ih =>
    intro st r h
    rcases ih (bulkStep st x) r h with h1 | h1
    · rcases index_message_rels_mem x false st.2 r h1 with h2 | h2
      · exact Or.inl h2
      · exact Or.inr ⟨x, by simp, h2⟩
    · obtain ⟨m, hm, hr⟩ := h1
      exact Or.inr ⟨m, by simp [hm], hr⟩

/-- C7 fails on the code: a rebuild scoped to account `a` still clears the
whole index first, so account `b`'s relationship and address rows — derived
solely from `b`'s message — are wiped and never recreated. -/
theorem scoped_rebuild_clears_others_counterexample :
    ({ message := 1, email_address := "c@y", field := "from",
       display_name := "" } : MessageEmailAddress) ∈ otherAccountDb.relationships ∧
    otherAccountDb.messages.map (fun m => m.account_email) = ["b"] ∧
    (rebuild_index (some "a") otherAccountDb).2.relationships = [] ∧
    (rebuild_index (some "a") otherAccountDb).2.addresses = [] := by
  refine ⟨by decide, by decide, by decide, by decide⟩

/-- C7 amended: a rebuild scoped to an account clears the entire index (all
accounts) and re-indexes only the scoped account's locally stored messages,
so after it every relationship row derives from a message of that account;
index entries derived solely from other accounts' messages are deleted, not
preserved. -/
theorem rebuild_scoped_amended (db : DB) (acc : String) :
    ∀ r ∈ (rebuild_index (some acc) db).2.relationships,
      ∃ m, m ∈ db.messages ∧ m.account_email = acc ∧ r.message = m.id := by
  intro r hr
  have hr' : r ∈ (((clear_index db).messages.filter
      (fun m => m.account_email == acc)).foldl bulkStep
      (0, clear_index db)).2.relationships := hr
  rcases bulk_rels_mem _ _ r hr' with h1 | h1
  · simp [clear_index] at h1
  · obtain ⟨m, hm, hrm⟩ := h1
    have hmf := List.mem_filter.mp hm
    exact ⟨m, hmf.1, by simpa using hmf.2, hrm⟩

/-- Witness: rebuilding account `a`'s store produces a relationship row, and
the theorem traces it back to `a`'s message. -/
theorem rebuild_scoped_amended_witness :
    ({ message := 1, email_address := "d@y", field := "from",
       display_name := "" } : MessageEmailAddress) ∈
      (rebuild_index (some "a") ownAccountDb).2.relationships ∧
    ∃ m, m ∈ ownAccountDb.messages ∧ m.account_email = "a" ∧
      ({ message := 1, email_address := "d@y", field := "from",
         display_name := "" } : MessageEmailAddress).message = m.id :=
  ⟨by decide,
   rebuild_scoped_amended ownAccountDb "a"
     { message := 1, email_address := "d@y", field := "from",
       display_name := "" } (by decide)⟩

/-! ### C6 — idempotence of `index_message_emails` -/

theorem displayUpd_email (n d : String) (a : IndexedEmailAddress) :
    (displayUpd n d a).email = a.email := by
  unfold displayUpd
  split <;> rfl

theorem displayUpd_display_of_nonempty (n d : String)
    (a : IndexedEmailAddress) (h : a.display_name ≠ "") :
    (displayUpd n d a).display_name = a.display_name := by
  unfold displayUpd
  split
  case isTrue hc =>
    simp only [Bool.and_eq_true, beq_iff_eq] at hc
    exact absurd hc.2 h
  case isFalse hc => rfl

theorem displayUpd_nonempty (n d : String) (a : IndexedEmailAddress)
    (hd : d ≠ "") (ha : a.email = n) :
    (displayUpd n d a).display_name ≠ "" := by
  unfold displayUpd
  split
  case isTrue hc => simpa using hd
  case isFalse hc =>
    intro hdisp
    exact hc (by simp [ha, hd, hdisp])

theorem countRefresh_email (i : Nat) (R : List MessageEmailAddress)
    (a : IndexedEmailAddress) : (countRefresh i R a).email = a.email := by
  unfold countRefresh
  split <;> rfl

theorem countRefresh_display (i : Nat) (R : List MessageEmailAddress)
    (a : IndexedEmailAddress) :
    (countRefresh i R a).display_name = a.display_name := by
  unfold countRefresh
  split <;> rfl

theorem countRefresh_idem (i : Nat) (R : List MessageEmailAddress)
    (a : IndexedEmailAddress) :
    countRefresh i R (countRefresh i R a) = countRefresh i R a := by
  unfold countRefresh
  by_cases hc : R.any (fun r => r.message == i && r.email_address == a.email) = true <;>
    simp [hc]

theorem list_map_comp_self (l : List IndexedEmailAddress)
    (f : IndexedEmailAddress → IndexedEmailAddress)
    (h : ∀ a, f (f a) = f a) : (l.map f).map f = l.map f := by
  induction l with
  | nil => rfl
  | cons x xs ih => simp [h, ih]

theorem updateCounts_idem (i : Nat) (A : List IndexedEmailAddress)
    (R : List MessageEmailAddress) :
    updateMessageCountsForMessage i (updateMessageCountsForMessage i A R) R =
      updateMessageCountsForMessage i A R := by
  unfold updateMessageCountsForMessage
  exact list_map_comp_self A (countRefresh i R) (countRefresh_idem i R)

theorem indexStep_count_rels_addr_indep (i : Nat) (e : String × EmailAddress)
    (n : Nat) (A A' : List IndexedEmailAddress)
    (R : List MessageEmailAddress) :
    ((indexStep i (n, A, R) e).1 = (indexStep i (n, A', R) e).1) ∧
    ((indexStep i (n, A, R) e).2.2 = (indexStep i (n, A', R) e).2.2) := by
  dsimp only [indexStep, createEmailRelationship]
  split
  · split
    · exact ⟨rfl, rfl⟩
    · split <;> exact ⟨rfl, rfl⟩
  · exact ⟨rfl, rfl⟩

theorem foldl_indexStep_addr_indep (i : Nat)
    (es : List (String × EmailAddress)) :
    ∀ (n : Nat) (A A' : List IndexedEmailAddress)
      (R : List MessageEmailAddress),
      ((es.foldl (indexStep i) (n, A, R)).1 =
        (es.foldl (indexStep i) (n, A', R)).1) ∧
      ((es.foldl (indexStep i) (n, A, R)).2.2 =
        (es.foldl (indexStep i) (n, A', R)).2.2) := by
  induction es with
  | nil => exact fun n A A' R => ⟨rfl, rfl⟩
  | cons e rest ih =>
    intro n A A' R
    have h := indexStep_count_rels_addr_indep i e n A A' R
    have key := ih (indexStep i (n, A, R) e).1 (indexStep i (n, A, R) e).2.1
      (indexStep i (n, A', R) e).2.1 (indexStep i (n, A, R) e).2.2
    rw [show ((indexStep i (n, A, R) e).1, (indexStep i (n, A', R) e).2.1,
        (indexStep i (n, A, R) e).2.2) = indexStep i (n, A', R) e from by
      rw [h.1, h.2]] at key
    exact key

theorem createEmailRelationship_addrs (i : Nat) (a : EmailAddress)
    (f : String) (A : List IndexedEmailAddress)
    (R : List MessageEmailAddress) :
    (createEmailRelationship i a f A R).2.1 = addrStepFn a A := by
  dsimp only [createEmailRelationship, addrStepFn]
  split
  · rfl
  · split <;> rfl

theorem indexStep_addrs (i : Nat)
    (st : Nat × List IndexedEmailAddress × List MessageEmailAddress)
    (e : String × EmailAddress) :
    (indexStep i st e).2.1 = entryAddrStep e st.2.1 := by
  dsimp only [indexStep, entryAddrStep]
  split
  · exact createEmailRelationship_addrs i e.2 e.1 st.2.1 st.2.2
  · rfl

theorem foldl_indexStep_addrs (i : Nat) (es : List (String × EmailAddress)) :
    ∀ (st : Nat × List IndexedEmailAddress × List MessageEmailAddress),
      (es.foldl (indexStep i) st).2.1 = addrFold es st.2.1 := by
  induction es with
  | nil => exact fun st => rfl
  | cons e rest ih =>
    intro st
    show (rest.foldl (indexStep i) (indexStep i st e)).2.1 =
      addrFold rest (entryAddrStep e st.2.1)
    rw [ih (indexStep i st e), indexStep_addrs]

theorem indexStep_filter (i : Nat)
    (st : Nat × List IndexedEmailAddress × List MessageEmailAddress)
    (e : String × EmailAddress) :
    ((indexStep i st e).2.2).filter (fun r => r.message ≠ i) =
      st.2.2.filter (fun r => r.message ≠ i) := by
  dsimp only [indexStep, createEmailRelationship]
  split
  · split
    · rfl
    · split
      · rfl
      · rw [List.filter_append]
        simp
  · rfl

theorem foldl_indexStep_filter (i : Nat)
    (es : List (String × EmailAddress)) :
    ∀ (st : Nat × List IndexedEmailAddress × List MessageEmailAddress),
      ((es.foldl (indexStep i) st).2.2).filter (fun r => r.message ≠ i) =
        st.2.2.filter (fun r => r.message ≠ i) := by
  induction es with
  | nil => exact fun st => rfl
  | cons e rest ih =>
    intro st
    show ((rest.foldl (indexStep i) (indexStep i st e)).2.2).filter
        (fun r => r.message ≠ i) = st.2.2.filter (fun r => r.message ≠ i)
    rw [ih (indexStep i st e), indexStep_filter]

theorem settled_entry_fix (e : String × EmailAddress)
    (A : List IndexedEmailAddress) (hs : Settled e A) :
    entryAddrStep e A = A := by
  dsimp only [entryAddrStep]
  by_cases hne : e.2.email = ""
  · rw [if_neg (not_not_intro hne)]
  · rw [if_pos hne]
    dsimp only [addrStepFn]
    by_cases hnn : normalizeEmail e.2.email = ""
    · rw [if_pos hnn]
    · rw [if_neg hnn]
      rcases hs with h | h | ⟨⟨a0, ha0, ha0e⟩, hall⟩
      · exact absurd h hne
      · exact absurd h hnn
      · have hcont : A.any (fun a => a.email == normalizeEmail e.2.email) = true :=
          List.any_eq_true.mpr ⟨a0, ha0, by simp [ha0e]⟩
        rw [if_pos hcont]
        apply list_map_self
        intro a ha
        unfold displayUpd
        split
        next hc =>
          exfalso
          simp only [Bool.and_eq_true, beq_iff_eq, bne_iff_ne] at hc
          rcases hall a ha hc.1.1 with hd | hd
          · exact hc.1.2 hd
          · exact hd hc.2
        next hc => rfl

theorem settled_entry_settles (e : String × EmailAddress)
    (A : List IndexedEmailAddress) : Settled e (entryAddrStep e A) := by
  dsimp only [entryAddrStep]
  by_cases hne : e.2.email = ""
  · exact Or.inl hne
  · rw [if_pos hne]
    dsimp only [addrStepFn]
    by_cases hnn : normalizeEmail e.2.email = ""
    · exact Or.inr (Or.inl hnn)
    · rw [if_neg hnn]
      refine Or.inr (Or.inr ⟨?_, ?_⟩)
      · by_cases hcont : A.any (fun a => a.email == normalizeEmail e.2.email) = true
        · rw [if_pos hcont]
          obtain ⟨a0, ha0, ha0e⟩ := List.any_eq_true.mp hcont
          exact ⟨displayUpd (normalizeEmail e.2.email) (decodedNameOf e.2) a0,
            List.mem_map_of_mem _ ha0,
            by rw [displayUpd_email]; simpa using ha0e⟩
        · rw [if_neg hcont]
          refine ⟨displayUpd (normalizeEmail e.2.email) (decodedNameOf e.2)
            { email := normalizeEmail e.2.email,
              display_name := decodedNameOf e.2, message_count := 0 },
            List.mem_map_of_mem _ (List.mem_append_right _ (by simp)), ?_⟩
          rw [displayUpd_email]
      · intro a ha hae
        by_cases hdec : decodedNameOf e.2 = ""
        · exact Or.inl hdec
        · right
          obtain ⟨b, _, rfl⟩ := List.mem_map.mp ha
          have hbe : b.email = normalizeEmail e.2.email := by
            rw [← displayUpd_email (normalizeEmail e.2.email) (decodedNameOf e.2) b]
            exact hae
          exact displayUpd_nonempty _ _ b hdec hbe

theorem settled_entry_mono (e e' : String × EmailAddress)
    (A : List IndexedEmailAddress) (hs : Settled e A) :
    Settled e (entryAddrStep e' A) := by
  rcases hs with h | h | ⟨⟨a0, ha0, ha0e⟩, hall⟩
  · exact Or.inl h
  · exact Or.inr (Or.inl h)
  · dsimp only [entryAddrStep]
    by_cases hne' : e'.2.email = ""
    · rw [if_neg (not_not_intro hne')]
      exact Or.inr (Or.inr ⟨⟨a0, ha0, ha0e⟩, hall⟩)
    · rw [if_pos hne']
      dsimp only [addrStepFn]
      by_cases hnn' : normalizeEmail e'.2.email = ""
      · rw [if_pos hnn']
        exact Or.inr (Or.inr ⟨⟨a0, ha0, ha0e⟩, hall⟩)
      · rw [if_neg hnn']
        by_cases hcont' : A.any (fun a => a.email == normalizeEmail e'.2.email) = true
        · rw [if_pos hcont']
          refine Or.inr (Or.inr ⟨⟨displayUpd _ _ a0, List.mem_map_of_mem _ ha0,
            by rw [displayUpd_email, ha0e]⟩, ?_⟩)
          intro a ha hae
          by_cases hdec : decodedNameOf e.2 = ""
          · exact Or.inl hdec
          · right
            obtain ⟨b, hb, rfl⟩ := List.mem_map.mp ha
            have hbe : b.email = normalizeEmail e.2.email := by
              rw [← displayUpd_email (normalizeEmail e'.2.email) (decodedNameOf e'.2) b]
              exact hae
            rcases hall b hb hbe with hd | hd
            · exact absurd hd hdec
            · rw [displayUpd_display_of_nonempty _ _ b hd]; exact hd
        · rw [if_neg hcont']
          refine Or.inr (Or.inr ⟨⟨displayUpd _ _ a0,
            List.mem_map_of_mem _ (List.mem_append_left _ ha0),
            by rw [displayUpd_email, ha0e]⟩, ?_⟩)
          intro a ha hae
          by_cases hdec : decodedNameOf e.2 = ""
          · exact Or.inl hdec
          · right
            obtain ⟨b, hb, rfl⟩ := List.mem_map.mp ha
            have hbe : b.email = normalizeEmail e.2.email := by
              rw [← displayUpd_email (normalizeEmail e'.2.email) (decodedNameOf e'.2) b]
              exact hae
            rcases List.mem_append.mp hb with hbA | hbNew
            · rcases hall b hbA hbe with hd | hd
              · exact absurd hd hdec
              · rw [displayUpd_display_of_nonempty _ _ b hd]; exact hd
            · exfalso
              simp only [List.mem_singleton] at hbNew
              subst hbNew
              simp only at hbe
              exact absurd (List.any_eq_true.mpr ⟨a0, ha0, by simp [ha0e, ← hbe]⟩)
                hcont'

theorem settled_updateCounts (e : String × EmailAddress) (i : Nat)
    (A : List IndexedEmailAddress) (R : List MessageEmailAddress)
    (hs : Settled e A) :
    Settled e (updateMessageCountsForMessage i A R) := by
  unfold updateMessageCountsForMessage
  rcases hs with h | h | ⟨⟨a0, ha0, ha0e⟩, hall⟩
  · exact Or.inl h
  · exact Or.inr (Or.inl h)
  · refine Or.inr (Or.inr ⟨⟨countRefresh i R a0, List.mem_map_of_mem _ ha0,
      by rw [countRefresh_email, ha0e]⟩, ?_⟩)
    intro a ha hae
    obtain ⟨b, hb, rfl⟩ := List.mem_map.mp ha
    have hbe : b.email = normalizeEmail e.2.email := by
      rw [← countRefresh_email i R b]; exact hae
    rcases hall b hb hbe with hd | hd
    · exact Or.inl hd
    · right
      rw [countRefresh_display]
      exact hd

theorem addrFold_settled_fix (es : List (String × EmailAddress))
    (A : List IndexedEmailAddress) (h : ∀ e ∈ es, Settled e A) :
    addrFold es A = A := by
  induction es with
  | nil => rfl
  | cons e rest ih =>
    show addrFold rest (entryAddrStep e A) = A
    rw [settled_entry_fix e A (h e (by simp))]
    exact ih (fun e' he' => h e' (by simp [he']))

theorem settled_addrFold_mono (e : String × EmailAddress)
    (es : List (String × EmailAddress)) :
    ∀ (A : List IndexedEmailAddress), Settled e A →
      Settled e (addrFold es A) := by
  induction es with
  | nil => exact fun A h => h
  | cons e' rest ih =>
    intro A h
    show Settled e (addrFold rest (entryAddrStep e' A))
    exact ih _ (settled_entry_mono e e' A h)

theorem addrFold_all_settled (es : List (String × EmailAddress)) :
    ∀ (A : List IndexedEmailAddress), ∀ e ∈ es, Settled e (addrFold es A) := by
  induction es with
  | nil => intro A e he; cases he
  | cons e' rest ih =>
    intro A e he
    rcases List.mem_cons.mp he with rfl | hm
    · show Settled e (addrFold rest (entryAddrStep e A))
      exact settled_addrFold_mono e rest _ (settled_entry_settles e A)
    · exact ih (entryAddrStep e' A) e hm

theorem index_idem_core (E : List (String × EmailAddress)) (i : Nat)
    (u : Bool) (A0 : List IndexedEmailAddress)
    (R0 : List MessageEmailAddress)
    (F1 : Nat × List IndexedEmailAddress × List MessageEmailAddress)
    (hF1 : F1 = E.foldl (indexStep i) (0, A0, R0))
    (A1 : List IndexedEmailAddress)
    (hA1 : A1 = if u then updateMessageCountsForMessage i F1.2.1 F1.2.2
                else F1.2.1)
    (hR0 : R0.filter (fun r => r.message ≠ i) = R0) :
    ((E.foldl (indexStep i)
        (0, A1, F1.2.2.filter (fun r => r.message ≠ i))).1 = F1.1) ∧
    ((E.foldl (indexStep i)
        (0, A1, F1.2.2.filter (fun r => r.message ≠ i))).2.2 = F1.2.2) ∧
    ((if u then
        updateMessageCountsForMessage i
          (E.foldl (indexStep i)
            (0, A1, F1.2.2.filter (fun r => r.message ≠ i))).2.1
          (E.foldl (indexStep i)
            (0, A1, F1.2.2.filter (fun r => r.message ≠ i))).2.2
      else (E.foldl (indexStep i)
            (0, A1, F1.2.2.filter (fun r => r.message ≠ i))).2.1) = A1) := by
  subst hF1
  subst hA1
  have hfilt : (E.foldl (indexStep i) (0, A0, R0)).2.2.filter
      (fun r => r.message ≠ i) = R0 := by
    rw [foldl_indexStep_filter i E (0, A0, R0)]
    exact hR0
  rw [hfilt]
  have hindep := foldl_indexStep_addr_indep i E 0
    (if u then updateMessageCountsForMessage i
        (E.foldl (indexStep i) (0, A0, R0)).2.1
        (E.foldl (indexStep i) (0, A0, R0)).2.2
      else (E.foldl (indexStep i) (0, A0, R0)).2.1) A0 R0
  refine ⟨hindep.1, hindep.2, ?_⟩
  have haddr1 : (E.foldl (indexStep i) (0, A0, R0)).2.1 = addrFold E A0 :=
    foldl_indexStep_addrs i E (0, A0, R0)
  have hsettled : ∀ e ∈ E, Settled e
      (if u then updateMessageCountsForMessage i
          (E.foldl (indexStep i) (0, A0, R0)).2.1
          (E.foldl (indexStep i) (0, A0, R0)).2.2
        else (E.foldl (indexStep i) (0, A0, R0)).2.1) := by
    intro e he
    have h0 : Settled e (addrFold E A0) := addrFold_all_settled E A0 e he
    cases u with
    | true =>
      rw [if_pos rfl, haddr1]
      exact settled_updateCounts e i _ _ h0
    | false =>
      rw [if_neg (by decide), haddr1]
      exact h0
  have haddr2 : (E.foldl (indexStep i)
      (0, (if u then updateMessageCountsForMessage i
          (E.foldl (indexStep i) (0, A0, R0)).2.1
          (E.foldl (indexStep i) (0, A0, R0)).2.2
        else (E.foldl (indexStep i) (0, A0, R0)).2.1), R0)).2.1 =
      addrFold E (if u then updateMessageCountsForMessage i
          (E.foldl (indexStep i) (0, A0, R0)).2.1
          (E.foldl (indexStep i) (0, A0, R0)).2.2
        else (E.foldl (indexStep i) (0, A0, R0)).2.1) :=
    foldl_indexStep_addrs i E _
  have hfix := addrFold_settled_fix E _ hsettled
  cases u with
  | true =>
    rw [if_pos rfl] at hfix haddr2 hindep ⊢
    rw [if_pos rfl]
    rw [haddr2, hfix, hindep.2]
    exact updateCounts_idem i (E.foldl (indexStep i) (0, A0, R0)).2.1
      (E.foldl (indexStep i) (0, A0, R0)).2.2
  | false =>
    rw [if_neg (by decide)] at hfix haddr2 ⊢
    rw [if_neg (by decide)]
    rw [haddr2, hfix]

/-- C6 confirmed: `index_message_emails` is idempotent — a second call on
the same unchanged message returns the same relationships-created count and
leaves the database exactly as the first call did, with no duplicate
relationship rows (the relationship table itself is unchanged). -/
theorem index_message_emails_idempotent (m : GoogleMailMessage) (u : Bool)
    (db : DB) :
    ((index_message_emails m u ((index_message_emails m u db).2)).1 =
      (index_message_emails m u db).1) ∧
    ((index_message_emails m u ((index_message_emails m u db).2)).2 =
      (index_message_emails m u db).2) := by
  have hR0 : (db.relationships.filter (fun r => r.message ≠ m.id)).filter
      (fun r => r.message ≠ m.id) =
      db.relationships.filter (fun r => r.message ≠ m.id) := by
    simp [List.filter_filter]
  have core := index_idem_core (messageEntries m) m.id u db.addresses
    (db.relationships.filter (fun r => r.message ≠ m.id)) _ rfl _ rfl hR0
  exact ⟨core.1, DB.ext_of _ _ rfl core.2.2 core.2.1 rfl⟩

end GoogleEmailIndexer
